import Mathlib

/-!
# ArXiv-Insight: shallow embedding and verification

This file embeds the core state and event handlers of the ArXiv-Insight
front end (an interactive PDF-annotation UI) in Lean 4 and proves, or
refutes, the claims of its specification.

Embedded source files:
* `src/App.tsx` — insight-request orchestrator (`handleAction`,
  `removeInsight`, `handleFileUpload`).
* `src/components/PaperViewer.tsx` — per-page selection controller
  (`handleMouseDown`, `handleMouseMove`, `handleMouseUp`) and the
  document-session controller (`PaperViewer`, `handleSelectionStart`,
  the `loadPdf` effect).
* `src/services/geminiService.ts` — `generateInsight`.
* `src/types.ts` — `InsightType`, `BoundingBox`, `SelectionData`,
  `InsightResult`.

Numbers that are JS `number` pixel coordinates are modelled as `Int`
(the handlers use only subtraction, `Math.abs` and comparisons, so the
embedding is exact on integral inputs).  The external collaborators
(canvas rasterisation, the Gemini API call, the PDF parser) are modelled
as opaque inputs: a crop function `BoundingBox → String`, an
`Except String GenResponse` call outcome, an `Option` parse outcome.
-/

namespace ArxivInsight

/-- `InsightType` from `src/types.ts`. -/
inductive InsightType where
  | explain
  | slide
  | infographic
  | code
  | summary
  deriving DecidableEq, Repr

/-- `BoundingBox` from `src/types.ts`: surface-pixel coordinates. -/
structure BoundingBox where
  x : Int
  y : Int
  width : Int
  height : Int
  deriving DecidableEq, Repr

/-- `SelectionData` from `src/types.ts`. -/
structure SelectionData where
  pageNumber : Nat
  rect : BoundingBox
  imageBase64 : String
  deriving DecidableEq, Repr

/-- `InsightResult` from `src/types.ts`. -/
structure InsightResult where
  id : String
  type : InsightType
  content : String
  isLoading : Bool
  timestamp : Nat
  deriving DecidableEq, Repr

/-! ## Page selection controller (`src/components/PaperViewer.tsx`, `PDFPage`)

Per-page mutable state: `selectionBox` (React state), `isSelecting`
(React state), `startPos` (a ref).  The canvas element is assumed
present and its 2d context available, as the handlers do. -/

/-- Per-page selection state of the `PDFPage` component. -/
structure PageSelState where
  isSelecting : Bool
  selectionBox : Option BoundingBox
  startPos : Option (Int × Int)
  deriving DecidableEq, Repr

/-- The state of a freshly mounted `PDFPage`. -/
def initPageSelState : PageSelState :=
  { isSelecting := false, selectionBox := none, startPos := none }

/-- The box computed by `handleMouseMove` (PaperViewer.tsx:96-109) from the
anchor `start` recorded at mouse-down and the current pointer `cur`:
`width = x - start.x`, `height = y - start.y`, the corner flipped to the
current point when a delta is negative, dimensions taken by `Math.abs`. -/
def moveBox (start cur : Int × Int) : BoundingBox :=
  let width := cur.1 - start.1
  let height := cur.2 - start.2
  { x := if width > 0 then start.1 else cur.1
  , y := if height > 0 then start.2 else cur.2
  , width := |width|
  , height := |height| }

/-- `handleMouseDown` (PaperViewer.tsx:88-94), page-local part: start
selecting, record the anchor, begin a zero-size visible box.  (The call
`onSelectionStart(pageNumber)` is modelled at the viewer level.) -/
def handleMouseDown (pt : Int × Int) (_s : PageSelState) : PageSelState :=
  { isSelecting := true
  , startPos := some pt
  , selectionBox := some { x := pt.1, y := pt.2, width := 0, height := 0 } }

/-- `handleMouseMove` (PaperViewer.tsx:96-109): ignored unless selecting
with a recorded anchor; otherwise replace the box by `moveBox`. -/
def handleMouseMove (pt : Int × Int) (s : PageSelState) : PageSelState :=
  match s.isSelecting, s.startPos with
  | true, some anchor => { s with selectionBox := some (moveBox anchor pt) }
  | _, _ => s

/-- `handleMouseUp` (PaperViewer.tsx:111-145), also bound to mouse-leave.
Returns the new page state and the emitted `SelectionData`, if any.
`crop` models reading the cropped canvas region as a data URL. -/
def handleMouseUp (pageNumber : Nat) (crop : BoundingBox → String)
    (s : PageSelState) : PageSelState × Option SelectionData :=
  match s.isSelecting, s.selectionBox with
  | true, some box =>
    if box.width < 10 ∨ box.height < 10 then
      -- Ignore tiny clicks: clear the visible box, emit nothing.
      ({ isSelecting := false, selectionBox := none, startPos := none }, none)
    else
      -- Commit: the visible box persists; emit the selection.
      ({ isSelecting := false, selectionBox := some box, startPos := none },
       some { pageNumber := pageNumber, rect := box, imageBase64 := crop box })
  | _, _ => ({ s with isSelecting := false }, none)

/-! ## Insight request orchestrator (`src/App.tsx`) -/

/-- The pending `InsightResult` built by `handleAction` (App.tsx:95-101):
`id` is `Date.now().toString()`, `timestamp` is the same `Date.now()`. -/
def pendingInsight (now : Nat) (t : InsightType) : InsightResult :=
  { id := toString now
  , type := t
  , content := ""
  , isLoading := true
  , timestamp := now }

/-- Synchronous part of `handleAction` (App.tsx:103-104): append the new
pending insight to the list. -/
def startAction (now : Nat) (t : InsightType) (l : List InsightResult) :
    List InsightResult :=
  l ++ [pendingInsight now t]

/-- The in-place terminal mutation applied to a located entry:
`{ ...i, content, isLoading: false }`. -/
def settleWith (content : String) (i : InsightResult) : InsightResult :=
  { i with content := content, isLoading := false }

/-- The completion updater of `handleAction` (App.tsx:110-117): both the
success branch and the catch branch map over the list and replace the
entry whose `id` matches. -/
def completeAction (id content : String) (l : List InsightResult) :
    List InsightResult :=
  l.map fun i => if i.id = id then settleWith content i else i

/-- The content written at completion (App.tsx:108-118): the awaited
`generateInsight` result on success, the fixed error string when the
awaited call rejects. -/
def settleContent (outcome : Except String String) : String :=
  match outcome with
  | .ok r => r
  | .error _ => "Error processing request."

/-- `removeInsight` (App.tsx:121-123): filter the entry out by id. -/
def removeInsight (id : String) (l : List InsightResult) :
    List InsightResult :=
  l.filter fun i => i.id ≠ id

/-! ## Orchestrator traces

The result list is mutated only by `handleAction`'s append, by the two
completion updaters, and by `removeInsight`; a trace of these operations
generates every reachable list. -/

/-- One result-list mutation of `App.tsx`. -/
inductive AppOp where
  | start (now : Nat) (t : InsightType)
  | complete (id content : String)
  | remove (id : String)
  deriving DecidableEq, Repr

/-- Apply one operation to the result list. -/
def stepOp (l : List InsightResult) : AppOp → List InsightResult
  | .start now t => startAction now t l
  | .complete id c => completeAction id c l
  | .remove id => removeInsight id l

/-- Run a trace of operations, left to right. -/
def execOps (l : List InsightResult) (ops : List AppOp) : List InsightResult :=
  ops.foldl stepOp l

/-- The `Date.now()` values of the trace's action invocations. -/
def startTimes : List AppOp → List Nat
  | [] => []
  | .start now _ :: rest => now :: startTimes rest
  | _ :: rest => startTimes rest

/-- The ids carried by the result list. -/
def insightIds (l : List InsightResult) : List String :=
  l.map (·.id)

/-- Decimal value of a digit string, used to invert `Nat.toDigits`. -/
def digitsVal (l : List Char) : Nat :=
  l.foldl (fun a c => 10 * a + (c.toNat - 48)) 0

/-! ## Document session controller (`PaperViewer`) and per-page wiring -/

/-- State owned by `PaperViewer` plus the per-page `PDFPage` states.
`activeSelectionPage` is the sentinel set by `handleSelectionStart`
(PaperViewer.tsx:218-220). -/
structure ViewerState where
  activeSelectionPage : Option Nat
  pages : Nat → PageSelState

/-- A freshly mounted viewer: no active page, every page pristine. -/
def initViewerState : ViewerState :=
  { activeSelectionPage := none, pages := fun _ => initPageSelState }

/-- Replace page `pg`'s state by `f` of it, leaving other pages alone. -/
def updatePage (pages : Nat → PageSelState) (pg : Nat)
    (f : PageSelState → PageSelState) : Nat → PageSelState :=
  fun p => if p = pg then f (pages p) else pages p

/-- A pointer event delivered to one page's canvas.  `leave` is bound to
the same handler as `up` (PaperViewer.tsx:152-153). -/
inductive PEvent where
  | down (page : Nat) (pt : Int × Int)
  | move (page : Nat) (pt : Int × Int)
  | up (page : Nat)
  | leave (page : Nat)
  deriving DecidableEq, Repr

/-- Viewer-level transition for one event, with effects flushed.

For `down pg`: the page handler runs (`handleMouseDown`, which first
calls `onSelectionStart(pg)`, i.e. `setActiveSelectionPage pg`); then the
effect at PaperViewer.tsx:72-76 fires on every page whose
`isSelectionActive` prop just turned false — exactly the previously
active page, when it is not `pg` — and clears that page's box.

For `up`/`leave pg`: `handleMouseUp` runs on page `pg`; its emission is
not part of the viewer state.  `crop` gives each page's rasteriser. -/
def stepEvent (crop : Nat → BoundingBox → String) (s : ViewerState) :
    PEvent → ViewerState
  | .down pg pt =>
    let pages1 := updatePage s.pages pg (handleMouseDown pt)
    { activeSelectionPage := some pg
    , pages := fun p =>
        if p ≠ pg ∧ s.activeSelectionPage = some p then
          { pages1 p with selectionBox := none }
        else pages1 p }
  | .move pg pt => { s with pages := updatePage s.pages pg (handleMouseMove pt) }
  | .up pg =>
    { s with pages := updatePage s.pages pg fun ps => (handleMouseUp pg (crop pg) ps).1 }
  | .leave pg =>
    { s with pages := updatePage s.pages pg fun ps => (handleMouseUp pg (crop pg) ps).1 }

/-- Run a list of pointer events, left to right. -/
def execEvents (crop : Nat → BoundingBox → String) (s : ViewerState)
    (es : List PEvent) : ViewerState :=
  es.foldl (stepEvent crop) s

/-- Event sequences a single pointer can physically produce: an event on
page `p` requires the pointer over `p`; the pointer exits a page only via
that page's `leave` event (the browser fires `mouseleave` on exit), and
may silently come to rest over some page while between canvases.  The
first argument is the page the pointer is over, if any. -/
inductive Realizable : Option Nat → List PEvent → Prop
  | nil (ptr : Option Nat) : Realizable ptr []
  | down (p : Nat) (pt : Int × Int) (es : List PEvent) :
      Realizable (some p) es → Realizable (some p) (PEvent.down p pt :: es)
  | move (p : Nat) (pt : Int × Int) (es : List PEvent) :
      Realizable (some p) es → Realizable (some p) (PEvent.move p pt :: es)
  | up (p : Nat) (es : List PEvent) :
      Realizable (some p) es → Realizable (some p) (PEvent.up p :: es)
  | leave (p : Nat) (es : List PEvent) :
      Realizable none es → Realizable (some p) (PEvent.leave p :: es)
  | enter (p : Nat) (es : List PEvent) :
      Realizable (some p) es → Realizable none es

/-- No two pages display a selection overlay simultaneously. -/
def atMostOneBox (s : ViewerState) : Prop :=
  ∀ p q, (s.pages p).selectionBox ≠ none → (s.pages q).selectionBox ≠ none →
    p = q

/-- Every visible box lies on the active page. -/
def boxesOnActive (s : ViewerState) : Prop :=
  ∀ p, (s.pages p).selectionBox ≠ none → s.activeSelectionPage = some p

/-- Only the page under the pointer can be mid-drag, and it is the
active page. -/
def selectingOnPointer (ptr : Option Nat) (s : ViewerState) : Prop :=
  ∀ p, (s.pages p).isSelecting = true →
    ptr = some p ∧ s.activeSelectionPage = some p

/-- Inductive invariant of the viewer, relative to the pointer page. -/
def viewerInv (ptr : Option Nat) (s : ViewerState) : Prop :=
  boxesOnActive s ∧ selectingOnPointer ptr s

/-! ## Application session (`App.tsx` + `PaperViewer` document state) -/

/-- The session-level state: `file`, `insights`, `currentSelection` live
in `App`; `pdfDoc` (an abstract handle) and `activeSelectionPage` live in
`PaperViewer`. -/
structure SessionState where
  file : Option String
  insights : List InsightResult
  currentSelection : Option SelectionData
  pdfDoc : Option Nat
  activeSelectionPage : Option Nat
  deriving DecidableEq, Repr

/-- `handleFileUpload` (App.tsx:80-86): when a file was chosen, store it,
clear the insights and the committed selection.  `PaperViewer` reacts to
the file change only by starting an asynchronous reload of `pdfDoc`
(PaperViewer.tsx:193-215); nothing writes `activeSelectionPage`. -/
def handleFileUpload (chosen : Option String) (s : SessionState) :
    SessionState :=
  match chosen with
  | some f => { s with file := some f, insights := [], currentSelection := none }
  | none => s

/-- Resolution of the asynchronous PDF parse started by the `loadPdf`
effect (PaperViewer.tsx:199-211): on success `setPdfDoc(doc)`; the catch
branch only logs, changing no state. -/
def loadPdfComplete (parsed : Option Nat) (s : SessionState) : SessionState :=
  match parsed with
  | some doc => { s with pdfDoc := some doc }
  | none => s

/-! ## Generation service (`src/services/geminiService.ts`) -/

/-- One response part; `inlineData` carries base64 image data when
present. -/
structure GenPart where
  inlineData : Option String
  deriving DecidableEq, Repr

/-- The shape of the external model response that `generateInsight`
inspects: `parts` is `response.candidates?.[0]?.content?.parts || []`
(missing pieces collapse to `[]`), `text` is the SDK's `response.text`
(`none` or `some ""` are both falsy to the `||` fallback). -/
structure GenResponse where
  parts : List GenPart
  text : Option String
  deriving DecidableEq, Repr

/-- The `for`-loop of the infographic flow (geminiService.ts:85-90):
first part carrying `inlineData`, if any. -/
def firstInlineImage : List GenPart → Option String
  | [] => none
  | p :: rest =>
    match p.inlineData with
    | some d => some d
    | none => firstInlineImage rest

/-- `generateInsight` (geminiService.ts:57-111) with the external
`ai.models.generateContent` call abstracted as its outcome `call`
(`Except.error e` models the awaited call throwing with message `e`).
The whole call is wrapped in `try`: an error becomes the string
`"Error generating insight: " ++ e`; the infographic flow returns the
first inline image as a data URL, else `"No image generated."`; the text
flow returns `response.text || "No response generated."`. -/
def generateInsight (t : InsightType) (call : Except String GenResponse) :
    String :=
  match call with
  | .error e => "Error generating insight: " ++ e
  | .ok resp =>
    if t = InsightType.infographic then
      match firstInlineImage resp.parts with
      | some d => "data:image/png;base64," ++ d
      | none => "No image generated."
    else
      match resp.text with
      | some txt => if txt = "" then "No response generated." else txt
      | none => "No response generated."

/-! ## Helper lemmas -/

theorem settleWith_id (c : String) (i : InsightResult) :
    (settleWith c i).id = i.id := rfl

theorem completeAction_of_not_mem (id c : String) :
    ∀ l : List InsightResult, (∀ i ∈ l, i.id ≠ id) →
      completeAction id c l = l
  | [], _ => rfl
  | a :: t, h => by
    have ht := completeAction_of_not_mem id c t
      (fun i hi => h i (List.mem_cons_of_mem a hi))
    simp only [completeAction, List.map_cons] at ht ⊢
    rw [if_neg (h a (List.mem_cons_self a t)), ht]

theorem mem_removeInsight_ne (id : String) (l : List InsightResult)
    (i : InsightResult) (hi : i ∈ removeInsight id l) : i.id ≠ id := by
  unfold removeInsight at hi
  simpa using List.of_mem_filter hi

theorem completeAction_append (id c : String) (l1 l2 : List InsightResult) :
    completeAction id c (l1 ++ l2)
      = completeAction id c l1 ++ completeAction id c l2 := by
  simp [completeAction]

/-! ### Injectivity of `Nat.toString`

`InsightResult.id` is `Date.now().toString()`; distinct clock values give
distinct ids because the decimal rendering of a natural number is
injective, proved here by parsing it back with `digitsVal`. -/

theorem toDigitsCore_acc (fuel : Nat) : ∀ (n : Nat) (ds : List Char),
    Nat.toDigitsCore 10 fuel n ds = Nat.toDigitsCore 10 fuel n [] ++ ds := by
  induction fuel with
  | zero => intro n ds; simp [Nat.toDigitsCore]
  | succ fuel ih =>
    intro n ds
    simp only [Nat.toDigitsCore]
    by_cases h : n / 10 = 0
    · simp [h]
    · simp only [if_neg h]
      rw [ih (n / 10) (Nat.digitChar (n % 10) :: ds),
        ih (n / 10) [Nat.digitChar (n % 10)], List.append_assoc]
      rfl

theorem digitChar_toNat (d : Nat) (h : d < 10) :
    (Nat.digitChar d).toNat = 48 + d := by
  interval_cases d <;> rfl

theorem digitsVal_concat (l : List Char) (c : Char) :
    digitsVal (l ++ [c]) = 10 * digitsVal l + (c.toNat - 48) := by
  simp [digitsVal, List.foldl_append]

theorem toDigitsCore_val (fuel : Nat) : ∀ n : Nat, n < fuel →
    digitsVal (Nat.toDigitsCore 10 fuel n []) = n := by
  induction fuel with
  | zero => intro n h; omega
  | succ fuel ih =>
    intro n h
    simp only [Nat.toDigitsCore]
    by_cases h0 : n / 10 = 0
    · simp only [if_pos h0]
      show digitsVal [Nat.digitChar (n % 10)] = n
      have hd := digitChar_toNat (n % 10) (Nat.mod_lt n (by norm_num))
      simp only [digitsVal, List.foldl_cons, List.foldl_nil, hd]
      omega
    · simp only [if_neg h0]
      rw [toDigitsCore_acc, digitsVal_concat]
      have h1 : 0 < n := by omega
      have hlt : n / 10 < fuel := by
        have h2 : n / 10 < n := Nat.div_lt_self h1 (by norm_num)
        omega
      rw [ih (n / 10) hlt, digitChar_toNat (n % 10) (Nat.mod_lt n (by norm_num))]
      omega

theorem natToString_injective : Function.Injective (fun n : Nat => toString n) := by
  intro m n h
  have h3 : Nat.toDigits 10 m = Nat.toDigits 10 n := congrArg String.data h
  have hm := toDigitsCore_val (m + 1) m (Nat.lt_succ_self m)
  have hn := toDigitsCore_val (n + 1) n (Nat.lt_succ_self n)
  unfold Nat.toDigits at h3
  calc m = digitsVal (Nat.toDigitsCore 10 (m + 1) m []) := hm.symm
    _ = digitsVal (Nat.toDigitsCore 10 (n + 1) n []) := by rw [h3]
    _ = n := hn

theorem insightIds_completeAction (id c : String) (l : List InsightResult) :
    insightIds (completeAction id c l) = insightIds l := by
  unfold insightIds completeAction
  rw [List.map_map]
  have hfun : ((·.id) ∘ fun i => if i.id = id then settleWith c i else i)
      = fun (i : InsightResult) => i.id := by
    funext i
    by_cases h : i.id = id <;> simp [Function.comp, h, settleWith_id]
  rw [hfun]

theorem insightIds_execOps_sublist :
    ∀ (ops : List AppOp) (l : List InsightResult),
      List.Sublist (insightIds (execOps l ops))
        (insightIds l ++ (startTimes ops).map toString)
  | [], l => by simp [execOps, startTimes]
  | AppOp.start now t :: rest, l => by
    have ih := insightIds_execOps_sublist rest (startAction now t l)
    have hids : insightIds (startAction now t l)
        = insightIds l ++ [toString now] := by
      simp [insightIds, startAction, pendingInsight]
    rw [hids] at ih
    simp only [execOps, List.foldl_cons, stepOp] at *
    simpa [startTimes, List.append_assoc] using ih
  | AppOp.complete id c :: rest, l => by
    have ih := insightIds_execOps_sublist rest (completeAction id c l)
    rw [insightIds_completeAction] at ih
    simp only [execOps, List.foldl_cons, stepOp] at *
    simpa [startTimes] using ih
  | AppOp.remove id :: rest, l => by
    have ih := insightIds_execOps_sublist rest (removeInsight id l)
    have hsub : List.Sublist (insightIds (removeInsight id l)) (insightIds l) := by
      unfold insightIds removeInsight
      exact (List.filter_sublist l).map (·.id)
    simp only [execOps, List.foldl_cons, stepOp] at *
    refine ih.trans ?_
    simpa [startTimes] using hsub.append_right ((startTimes rest).map toString)

/-! ## Claims -/

/-- C1: for every drag (pointer-down anchor `s`, pointer-move to `c`),
the box computed by `handleMouseMove` has non-negative width and height,
its `x`,`y` is the minimum (top-left) corner of the anchor and the
current point, and swapping the roles of the two points (dragging
up-left vs down-right) yields the same box. -/
theorem c1_drag_box_normalized (s c : Int × Int) :
    0 ≤ (moveBox s c).width ∧ 0 ≤ (moveBox s c).height ∧
    (moveBox s c).x = min s.1 c.1 ∧ (moveBox s c).y = min s.2 c.2 ∧
    moveBox s c = moveBox c s := by
  refine ⟨abs_nonneg _, abs_nonneg _, ?_, ?_, ?_⟩
  · simp only [moveBox]
    split_ifs with h
    · exact (min_eq_left (by omega)).symm
    · exact (min_eq_right (by omega)).symm
  · simp only [moveBox]
    split_ifs with h
    · exact (min_eq_left (by omega)).symm
    · exact (min_eq_right (by omega)).symm
  · simp only [moveBox, BoundingBox.mk.injEq]
    refine ⟨?_, ?_, abs_sub_comm _ _, abs_sub_comm _ _⟩
    · split_ifs <;> omega
    · split_ifs <;> omega

/-- C5: a completion update whose id is absent from the list is a no-op:
the list is unchanged (nothing reintroduced, and the update is a total
function, so no error is raised); in particular after `removeInsight id`
the late completion for `id` changes nothing. -/
theorem c5_missing_id_update_noop (id c : String) (l l2 : List InsightResult)
    (h : ∀ i ∈ l, i.id ≠ id) :
    completeAction id c l = l ∧
    completeAction id c (removeInsight id l2) = removeInsight id l2 :=
  ⟨completeAction_of_not_mem id c l h,
   completeAction_of_not_mem id c _ (fun i hi => mem_removeInsight_ne id l2 i hi)⟩

theorem c5_missing_id_update_noop_witness :
    (∀ i ∈ [pendingInsight 7 .explain], i.id ≠ "5") ∧
    (completeAction "5" "x" [pendingInsight 7 .explain]
        = [pendingInsight 7 .explain] ∧
     completeAction "5" "x" (removeInsight "5" [pendingInsight 5 .code])
        = removeInsight "5" [pendingInsight 5 .code]) :=
  ⟨by decide, c5_missing_id_update_noop "5" "x" _ _ (by decide)⟩

/-- C4, counterexample to the claim as stated: two action invocations in
the same millisecond (`Date.now() = 5` twice) create two entries sharing
the id `"5"`; when the first request resolves `"A"` and the second
`"B"`, each completion's map-by-id update matches *both* entries, so the
first-created entry is terminally mutated twice and ends with the second
request's content — the final contents are `["B", "B"]`, not the
`["A", "B"]` the claim requires (each entry filled with its own
request's outcome by exactly one terminal mutation). -/
theorem c4_counterexample :
    (execOps [] [AppOp.start 5 .explain, AppOp.start 5 .explain,
        AppOp.complete (toString 5) "A",
        AppOp.complete (toString 5) "B"]).map (·.content)
      ≠ ["A", "B"] := by
  decide

/-- C4, amended: for every action invocation whose time-based id is not
already carried by an entry in the list (per C2, every invocation at a
fresh millisecond), the invocation appends an entry with `isLoading = true` and
`content = ""`; settling it (whether the generation call resolved or
threw) performs exactly one terminal mutation — the final list is the
prior list, untouched, plus the settled entry, which has
`isLoading = false` and content equal to the call's result on success or
the fixed error string on failure; further terminal mutations keep it
non-loading (it never transitions back to loading). -/
theorem c4_insight_lifecycle (l : List InsightResult) (now : Nat)
    (t : InsightType) (outcome : Except String String) (r e c2 : String)
    (hfresh : ∀ i ∈ l, i.id ≠ (pendingInsight now t).id) :
    (pendingInsight now t).isLoading = true ∧
    (pendingInsight now t).content = "" ∧
    startAction now t l = l ++ [pendingInsight now t] ∧
    completeAction (pendingInsight now t).id (settleContent outcome)
        (startAction now t l)
      = l ++ [settleWith (settleContent outcome) (pendingInsight now t)] ∧
    (settleWith (settleContent outcome) (pendingInsight now t)).isLoading
      = false ∧
    settleContent (Except.ok r) = r ∧
    settleContent (Except.error e) = "Error processing request." ∧
    (settleWith c2
        (settleWith (settleContent outcome) (pendingInsight now t))).isLoading
      = false := by
  refine ⟨rfl, rfl, rfl, ?_, rfl, rfl, rfl, rfl⟩
  rw [startAction, completeAction_append,
    completeAction_of_not_mem _ _ l hfresh]
  simp [completeAction]

theorem c4_insight_lifecycle_witness :
    (∀ i ∈ ([] : List InsightResult), i.id ≠ (pendingInsight 1 .explain).id) ∧
    ((pendingInsight 1 .explain).isLoading = true ∧
     (pendingInsight 1 .explain).content = "" ∧
     startAction 1 .explain [] = [] ++ [pendingInsight 1 .explain] ∧
     completeAction (pendingInsight 1 .explain).id
         (settleContent (Except.ok "hi")) (startAction 1 .explain [])
       = [] ++ [settleWith (settleContent (Except.ok "hi"))
           (pendingInsight 1 .explain)] ∧
     (settleWith (settleContent (Except.ok "hi"))
         (pendingInsight 1 .explain)).isLoading = false ∧
     settleContent (Except.ok "hi") = "hi" ∧
     settleContent (Except.error "boom") = "Error processing request." ∧
     (settleWith "y" (settleWith (settleContent (Except.ok "hi"))
         (pendingInsight 1 .explain))).isLoading = false) :=
  ⟨by decide, c4_insight_lifecycle [] 1 .explain (Except.ok "hi") "hi" "boom" "y"
    (by decide)⟩

/-- C3, counterexample to the claim as stated: two action invocations in
the same millisecond (`Date.now() = 5` twice) create two in-flight
requests whose entries share the id `"5"`; applying the two completion
updates in the two orders yields different final lists, so completion
order is not always immaterial and completion of one request can
overwrite the other's entry. -/
theorem c3_counterexample :
    completeAction "5" "B" (completeAction "5" "A"
        (startAction 5 .explain (startAction 5 .explain [])))
      ≠ completeAction "5" "A" (completeAction "5" "B"
        (startAction 5 .explain (startAction 5 .explain []))) := by
  decide

/-- C3, amended: for two in-flight requests whose entries carry
*distinct* ids, the two completion updates commute — applying them in
either order yields the same final list — and the combined effect
settles each entry with its own request's outcome while leaving every
other entry untouched. -/
theorem c3_completion_order_independent (id1 id2 c1 c2 : String)
    (l : List InsightResult) (h : id1 ≠ id2) :
    completeAction id2 c2 (completeAction id1 c1 l)
      = l.map (fun i =>
          if i.id = id1 then settleWith c1 i
          else if i.id = id2 then settleWith c2 i else i) ∧
    completeAction id2 c2 (completeAction id1 c1 l)
      = completeAction id1 c1 (completeAction id2 c2 l) := by
  have key : ∀ (a b ca cb : String), a ≠ b →
      completeAction b cb (completeAction a ca l)
        = l.map (fun i =>
            if i.id = a then settleWith ca i
            else if i.id = b then settleWith cb i else i) := by
    intro a b ca cb hab
    unfold completeAction
    rw [List.map_map]
    have hfun : ((fun i => if i.id = b then settleWith cb i else i) ∘
        (fun i => if i.id = a then settleWith ca i else i))
        = fun i => if i.id = a then settleWith ca i
            else if i.id = b then settleWith cb i else i := by
      funext i
      by_cases h1 : i.id = a
      · simp [Function.comp, h1, settleWith_id, hab]
      · simp [Function.comp, h1]
    rw [hfun]
  refine ⟨key id1 id2 c1 c2 h, ?_⟩
  rw [key id1 id2 c1 c2 h, key id2 id1 c2 c1 (Ne.symm h)]
  have hfun2 : (fun (i : InsightResult) =>
        if i.id = id1 then settleWith c1 i
        else if i.id = id2 then settleWith c2 i else i)
      = fun i => if i.id = id2 then settleWith c2 i
          else if i.id = id1 then settleWith c1 i else i := by
    funext i
    by_cases h1 : i.id = id1 <;> by_cases h2 : i.id = id2
    · exact absurd (h1.symm.trans h2) h
    · simp [h1, h2, h, Ne.symm h]
    · simp [h1, h2, h, Ne.symm h]
    · simp [h1, h2, h, Ne.symm h]
  rw [hfun2]

theorem c3_completion_order_independent_witness :
    ("1" : String) ≠ "2" ∧
    (completeAction "2" "B" (completeAction "1" "A"
        [pendingInsight 1 .explain, pendingInsight 2 .code])
      = [pendingInsight 1 .explain, pendingInsight 2 .code].map (fun i =>
          if i.id = "1" then settleWith "A" i
          else if i.id = "2" then settleWith "B" i else i) ∧
     completeAction "2" "B" (completeAction "1" "A"
        [pendingInsight 1 .explain, pendingInsight 2 .code])
      = completeAction "1" "A" (completeAction "2" "B"
        [pendingInsight 1 .explain, pendingInsight 2 .code])) :=
  ⟨by decide, c3_completion_order_independent "1" "2" "A" "B" _ (by decide)⟩

/-- C2, counterexample to the claim as stated: `handleAction` takes the
id from `Date.now().toString()`, so two action invocations in the same
millisecond (here both at time 5) reach a state whose insight list
carries two entries with the same id `"5"` — reachable states do not
always have pairwise-distinct ids. -/
theorem c2_counterexample :
    ¬ (insightIds (execOps []
        [AppOp.start 5 .explain, AppOp.start 5 .explain])).Nodup := by
  decide

/-- C2, amended: ids are pairwise distinct in every reachable state
*provided* the `Date.now()` values of the action invocations in the
trace are pairwise distinct (the time-based identifier is unique only
across distinct milliseconds). -/
theorem c2_distinct_times_distinct_ids (ops : List AppOp)
    (h : (startTimes ops).Nodup) :
    (insightIds (execOps [] ops)).Nodup := by
  have hsub := insightIds_execOps_sublist ops []
  have hnodup : ((startTimes ops).map toString).Nodup :=
    h.map natToString_injective
  have hids : insightIds ([] : List InsightResult) = [] := rfl
  rw [hids, List.nil_append] at hsub
  exact hnodup.sublist hsub

theorem c2_distinct_times_distinct_ids_witness :
    (startTimes [AppOp.start 1 .explain, AppOp.start 2 .code,
        AppOp.complete "1" "done", AppOp.remove "2"]).Nodup ∧
    (insightIds (execOps [] [AppOp.start 1 .explain, AppOp.start 2 .code,
        AppOp.complete "1" "done", AppOp.remove "2"])).Nodup :=
  ⟨by decide, c2_distinct_times_distinct_ids _ (by decide)⟩

/-- C6: at pointer-up during a drag (selecting, with a box present), a
box with `width < 10` or `height < 10` is discarded — no `SelectionData`
is emitted and the visible box is cleared — while a box meeting the
threshold yields exactly one `SelectionData` carrying the committed box
and its crop (and the overlay persists, uncleared). -/
theorem c6_minimum_size_threshold (pg : Nat) (crop : BoundingBox → String)
    (s : PageSelState) (box : BoundingBox)
    (hsel : s.isSelecting = true) (hbox : s.selectionBox = some box) :
    (box.width < 10 ∨ box.height < 10 →
      handleMouseUp pg crop s
        = ({ isSelecting := false, selectionBox := none, startPos := none },
           none)) ∧
    (¬(box.width < 10 ∨ box.height < 10) →
      handleMouseUp pg crop s
        = ({ isSelecting := false, selectionBox := some box, startPos := none },
           some { pageNumber := pg, rect := box, imageBase64 := crop box })) := by
  constructor
  · intro hsmall
    simp [handleMouseUp, hsel, hbox, hsmall]
  · intro hbig
    simp [handleMouseUp, hsel, hbox, hbig]

theorem c6_minimum_size_threshold_witness :
    ((⟨true, some ⟨2, 3, 4, 5⟩, some (2, 3)⟩ : PageSelState).isSelecting
        = true) ∧
    ((⟨true, some ⟨2, 3, 4, 5⟩, some (2, 3)⟩ : PageSelState).selectionBox
        = some ⟨2, 3, 4, 5⟩) ∧
    (((4 : Int) < 10 ∨ (5 : Int) < 10 →
      handleMouseUp 1 (fun _ => "img")
          (⟨true, some ⟨2, 3, 4, 5⟩, some (2, 3)⟩ : PageSelState)
        = ({ isSelecting := false, selectionBox := none, startPos := none },
           none)) ∧
    (¬((4 : Int) < 10 ∨ (5 : Int) < 10) →
      handleMouseUp 1 (fun _ => "img")
          (⟨true, some ⟨2, 3, 4, 5⟩, some (2, 3)⟩ : PageSelState)
        = ({ isSelecting := false, selectionBox := some ⟨2, 3, 4, 5⟩,
             startPos := none },
           some { pageNumber := 1, rect := ⟨2, 3, 4, 5⟩,
                  imageBase64 := "img" }))) := by
  refine ⟨rfl, rfl, ?_⟩
  have h := c6_minimum_size_threshold 1 (fun _ => "img")
    ⟨true, some ⟨2, 3, 4, 5⟩, some (2, 3)⟩ ⟨2, 3, 4, 5⟩ rfl rfl
  exact h

/-! ### Viewer invariant machinery (for C7) -/

theorem handleMouseMove_isSelecting (pt : Int × Int) (s : PageSelState) :
    (handleMouseMove pt s).isSelecting = s.isSelecting := by
  obtain ⟨sel, box, sp⟩ := s
  cases sel <;> cases sp <;> rfl

theorem handleMouseMove_eq_of_not_selecting (pt : Int × Int)
    (s : PageSelState) (h : s.isSelecting = false) :
    handleMouseMove pt s = s := by
  obtain ⟨sel, box, sp⟩ := s
  cases sel
  · cases sp <;> rfl
  · exact absurd h (by simp)

theorem handleMouseUp_fst_isSelecting (pg : Nat) (crop : BoundingBox → String)
    (s : PageSelState) : ((handleMouseUp pg crop s).1).isSelecting = false := by
  obtain ⟨sel, box, sp⟩ := s
  cases sel <;> cases box <;> simp [handleMouseUp]
  split_ifs <;> rfl

theorem handleMouseUp_fst_box (pg : Nat) (crop : BoundingBox → String)
    (s : PageSelState) :
    ((handleMouseUp pg crop s).1).selectionBox = none ∨
    ((handleMouseUp pg crop s).1).selectionBox = s.selectionBox := by
  obtain ⟨sel, box, sp⟩ := s
  cases sel <;> cases box <;> simp [handleMouseUp]
  split_ifs <;> simp

theorem stepEvent_down_active (crop : Nat → BoundingBox → String)
    (s : ViewerState) (pg : Nat) (pt : Int × Int) :
    (stepEvent crop s (.down pg pt)).activeSelectionPage = some pg := rfl

theorem stepEvent_down_pages_self (crop : Nat → BoundingBox → String)
    (s : ViewerState) (pg : Nat) (pt : Int × Int) :
    (stepEvent crop s (.down pg pt)).pages pg
      = handleMouseDown pt (s.pages pg) := by
  simp [stepEvent, updatePage]

theorem stepEvent_down_pages_other (crop : Nat → BoundingBox → String)
    (s : ViewerState) (pg : Nat) (pt : Int × Int) (p : Nat) (hp : p ≠ pg) :
    (stepEvent crop s (.down pg pt)).pages p
      = if s.activeSelectionPage = some p then
          { s.pages p with selectionBox := none }
        else s.pages p := by
  simp [stepEvent, updatePage, hp]

theorem stepEvent_move_active (crop : Nat → BoundingBox → String)
    (s : ViewerState) (pg : Nat) (pt : Int × Int) :
    (stepEvent crop s (.move pg pt)).activeSelectionPage
      = s.activeSelectionPage := rfl

theorem stepEvent_move_pages_self (crop : Nat → BoundingBox → String)
    (s : ViewerState) (pg : Nat) (pt : Int × Int) :
    (stepEvent crop s (.move pg pt)).pages pg
      = handleMouseMove pt (s.pages pg) := by
  simp [stepEvent, updatePage]

theorem stepEvent_move_pages_other (crop : Nat → BoundingBox → String)
    (s : ViewerState) (pg : Nat) (pt : Int × Int) (p : Nat) (hp : p ≠ pg) :
    (stepEvent crop s (.move pg pt)).pages p = s.pages p := by
  simp [stepEvent, updatePage, hp]

theorem stepEvent_up_active (crop : Nat → BoundingBox → String)
    (s : ViewerState) (pg : Nat) :
    (stepEvent crop s (.up pg)).activeSelectionPage
      = s.activeSelectionPage := rfl

theorem stepEvent_up_pages_self (crop : Nat → BoundingBox → String)
    (s : ViewerState) (pg : Nat) :
    (stepEvent crop s (.up pg)).pages pg
      = (handleMouseUp pg (crop pg) (s.pages pg)).1 := by
  simp [stepEvent, updatePage]

theorem stepEvent_up_pages_other (crop : Nat → BoundingBox → String)
    (s : ViewerState) (pg : Nat) (p : Nat) (hp : p ≠ pg) :
    (stepEvent crop s (.up pg)).pages p = s.pages p := by
  simp [stepEvent, updatePage, hp]

theorem stepEvent_leave_eq_up (crop : Nat → BoundingBox → String)
    (s : ViewerState) (pg : Nat) :
    stepEvent crop s (.leave pg) = stepEvent crop s (.up pg) := rfl

theorem viewerInv_step_down (crop : Nat → BoundingBox → String)
    (s : ViewerState) (pg : Nat) (pt : Int × Int)
    (h : viewerInv (some pg) s) :
    viewerInv (some pg) (stepEvent crop s (.down pg pt)) := by
  obtain ⟨h1, h2⟩ := h
  constructor
  · intro p hp
    rw [stepEvent_down_active]
    by_cases hppg : p = pg
    · rw [hppg]
    · rw [stepEvent_down_pages_other crop s pg pt p hppg] at hp
      split_ifs at hp with hact
      · simp at hp
      · exact absurd (h1 p hp) hact
  · intro p hp
    rw [stepEvent_down_active]
    by_cases hppg : p = pg
    · exact ⟨by rw [hppg], by rw [hppg]⟩
    · rw [stepEvent_down_pages_other crop s pg pt p hppg] at hp
      have hps : (s.pages p).isSelecting = true := by
        split_ifs at hp
        · exact hp
        · exact hp
      exact absurd (Option.some.inj (h2 p hps).1) (Ne.symm hppg)

theorem viewerInv_step_move (crop : Nat → BoundingBox → String)
    (s : ViewerState) (pg : Nat) (pt : Int × Int)
    (h : viewerInv (some pg) s) :
    viewerInv (some pg) (stepEvent crop s (.move pg pt)) := by
  obtain ⟨h1, h2⟩ := h
  constructor
  · intro p hp
    rw [stepEvent_move_active]
    by_cases hppg : p = pg
    · subst hppg
      rw [stepEvent_move_pages_self] at hp
      cases hsel : (s.pages p).isSelecting
      · rw [handleMouseMove_eq_of_not_selecting pt _ hsel] at hp
        exact h1 p hp
      · exact (h2 p hsel).2
    · rw [stepEvent_move_pages_other crop s pg pt p hppg] at hp
      exact h1 p hp
  · intro p hp
    rw [stepEvent_move_active]
    by_cases hppg : p = pg
    · subst hppg
      rw [stepEvent_move_pages_self, handleMouseMove_isSelecting] at hp
      exact h2 p hp
    · rw [stepEvent_move_pages_other crop s pg pt p hppg] at hp
      exact h2 p hp

theorem viewerInv_step_up (crop : Nat → BoundingBox → String)
    (s : ViewerState) (pg : Nat) (h : viewerInv (some pg) s) :
    viewerInv (some pg) (stepEvent crop s (.up pg)) := by
  obtain ⟨h1, h2⟩ := h
  constructor
  · intro p hp
    rw [stepEvent_up_active]
    by_cases hppg : p = pg
    · subst hppg
      rw [stepEvent_up_pages_self] at hp
      rcases handleMouseUp_fst_box p (crop p) (s.pages p) with hb | hb
      · exact absurd hb hp
      · rw [hb] at hp
        exact h1 p hp
    · rw [stepEvent_up_pages_other crop s pg p hppg] at hp
      exact h1 p hp
  · intro p hp
    rw [stepEvent_up_active]
    by_cases hppg : p = pg
    · subst hppg
      rw [stepEvent_up_pages_self, handleMouseUp_fst_isSelecting] at hp
      exact absurd hp (by simp)
    · rw [stepEvent_up_pages_other crop s pg p hppg] at hp
      exact absurd (Option.some.inj (h2 p hp).1) (Ne.symm hppg)

theorem viewerInv_step_leave (crop : Nat → BoundingBox → String)
    (s : ViewerState) (pg : Nat) (h : viewerInv (some pg) s) :
    viewerInv none (stepEvent crop s (.leave pg)) := by
  rw [stepEvent_leave_eq_up]
  obtain ⟨h1, h2⟩ := viewerInv_step_up crop s pg h
  refine ⟨h1, fun p hp => ?_⟩
  by_cases hppg : p = pg
  · subst hppg
    rw [stepEvent_up_pages_self, handleMouseUp_fst_isSelecting] at hp
    exact absurd hp (by simp)
  · rw [stepEvent_up_pages_other crop s pg p hppg] at hp
    exact absurd (Option.some.inj ((h.2) p hp).1) (Ne.symm hppg)

theorem viewerInv_enter (p : Nat) (s : ViewerState) (h : viewerInv none s) :
    viewerInv (some p) s := by
  obtain ⟨h1, h2⟩ := h
  exact ⟨h1, fun q hq => absurd ((h2 q hq).1) (by simp)⟩

theorem viewerInv_execEvents (crop : Nat → BoundingBox → String)
    (ptr : Option Nat) (es : List PEvent) (hreal : Realizable ptr es) :
    ∀ s, viewerInv ptr s →
      ∃ ptr', viewerInv ptr' (execEvents crop s es) := by
  induction hreal with
  | nil ptr => exact fun s hs => ⟨ptr, hs⟩
  | down p pt es hes ih =>
    exact fun s hs => ih (stepEvent crop s (.down p pt))
      (viewerInv_step_down crop s p pt hs)
  | move p pt es hes ih =>
    exact fun s hs => ih (stepEvent crop s (.move p pt))
      (viewerInv_step_move crop s p pt hs)
  | up p es hes ih =>
    exact fun s hs => ih (stepEvent crop s (.up p))
      (viewerInv_step_up crop s p hs)
  | leave p es hes ih =>
    exact fun s hs => ih (stepEvent crop s (.leave p))
      (viewerInv_step_leave crop s p hs)
  | enter p es hes ih =>
    exact fun s hs => ih s (viewerInv_enter p s hs)

/-- C7: along every pointer-realizable event sequence from a fresh
viewer, the reached state shows a selection overlay on at most one page:
a pointer-down on a page activates it and the effect clears every other
page's box, so no two pages ever display a box simultaneously. -/
theorem c7_single_selection_overlay (crop : Nat → BoundingBox → String)
    (ptr : Option Nat) (es : List PEvent) (h : Realizable ptr es) :
    atMostOneBox (execEvents crop initViewerState es) := by
  have hinv : viewerInv ptr initViewerState := by
    constructor
    · intro p hp
      exact absurd rfl hp
    · intro p hp
      exact absurd hp (by simp [initViewerState, initPageSelState])
  obtain ⟨ptr', h1, h2⟩ := viewerInv_execEvents crop ptr es h initViewerState hinv
  intro p q hp hq
  have hap := h1 p hp
  have haq := h1 q hq
  exact Option.some.inj (hap.symm.trans haq)

theorem c7_single_selection_overlay_witness :
    atMostOneBox (execEvents (fun _ _ => "img") initViewerState
      [PEvent.down 1 (0, 0), PEvent.move 1 (20, 30), PEvent.leave 1,
       PEvent.down 2 (5, 5)]) :=
  c7_single_selection_overlay (fun _ _ => "img") (some 1) _
    (Realizable.down 1 (0, 0) _ (Realizable.move 1 (20, 30) _
      (Realizable.leave 1 _ (Realizable.enter 2 _
        (Realizable.down 2 (5, 5) _ (Realizable.nil (some 2)))))))

/-- C8, counterexample to the claim as stated: `handleFileUpload` clears
the insights and the committed selection, but nothing in `App` or
`PaperViewer` writes `activeSelectionPage` on a file change — loading a
new document over a session whose active-selection marker is page 2
leaves the marker at page 2, so the claimed full reset (selection null ∧
insights empty ∧ marker cleared) fails. -/
theorem c8_counterexample :
    ¬ ((handleFileUpload (some "new.pdf")
          { file := some "old.pdf", insights := [],
            currentSelection := none, pdfDoc := some 1,
            activeSelectionPage := some 2 }).currentSelection = none ∧
       (handleFileUpload (some "new.pdf")
          { file := some "old.pdf", insights := [],
            currentSelection := none, pdfDoc := some 1,
            activeSelectionPage := some 2 }).insights = [] ∧
       (handleFileUpload (some "new.pdf")
          { file := some "old.pdf", insights := [],
            currentSelection := none, pdfDoc := some 1,
            activeSelectionPage := some 2 }).activeSelectionPage = none) := by
  decide

/-- C8, amended: loading a new document resets the committed selection
to null and empties the insight list, and stores the new file; the
active-selection page marker (and the not-yet-reloaded document handle)
are left unchanged, not cleared. -/
theorem c8_file_upload_resets (f : String) (s : SessionState) :
    (handleFileUpload (some f) s).insights = [] ∧
    (handleFileUpload (some f) s).currentSelection = none ∧
    (handleFileUpload (some f) s).file = some f ∧
    (handleFileUpload (some f) s).activeSelectionPage
      = s.activeSelectionPage ∧
    (handleFileUpload (some f) s).pdfDoc = s.pdfDoc :=
  ⟨rfl, rfl, rfl, rfl, rfl⟩

/-- C9, counterexample to the claim as stated: when the asynchronous
parse of a newly uploaded file fails while an earlier document is
loaded, the catch branch only logs — the old document handle remains
exposed, so the session is not left in an empty state. -/
theorem c9_counterexample :
    (loadPdfComplete none
        { file := some "b.pdf", insights := [], currentSelection := none,
          pdfDoc := some 1, activeSelectionPage := none }).pdfDoc
      ≠ none := by
  decide

/-- C9, amended: a failed parse changes no session state at all — no
partial document state is created and no fault escapes (the handler is a
total function); in particular a session with no document loaded stays
empty, and the user may retry by re-uploading. -/
theorem c9_parse_failure_no_partial_state (s : SessionState) :
    loadPdfComplete none s = s ∧
    (s.pdfDoc = none → (loadPdfComplete none s).pdfDoc = none) :=
  ⟨rfl, fun h => h⟩

theorem c9_parse_failure_no_partial_state_witness :
    loadPdfComplete none
        { file := some "b.pdf", insights := [], currentSelection := none,
          pdfDoc := none, activeSelectionPage := none }
      = { file := some "b.pdf", insights := [], currentSelection := none,
          pdfDoc := none, activeSelectionPage := none } ∧
    (loadPdfComplete none
        { file := some "b.pdf", insights := [], currentSelection := none,
          pdfDoc := none, activeSelectionPage := none }).pdfDoc = none :=
  ⟨(c9_parse_failure_no_partial_state _).1,
   (c9_parse_failure_no_partial_state
      { file := some "b.pdf", insights := [], currentSelection := none,
        pdfDoc := none, activeSelectionPage := none }).2 rfl⟩

/-- C10: `generateInsight` never rejects — it is a total function of the
external call's outcome.  A thrown error is caught inside the service
and yields the string `"Error generating insight: " ++ e` (which begins
with the documented text); an infographic response without inline image
data yields `"No image generated."`; a text response whose `text` is
absent or empty yields `"No response generated."`; consequently the
orchestrator always receives a resolved value
(`Except.ok (generateInsight …)`), whose settled content is the service
string itself — `handleAction`'s catch branch is unreachable for
generation-API failures. -/
theorem c10_service_never_rejects (t : InsightType) (e : String)
    (resp resp2 : GenResponse) (call : Except String GenResponse)
    (hni : t ≠ InsightType.infographic)
    (hnotext : resp.text = none ∨ resp.text = some "")
    (hnoimg : firstInlineImage resp2.parts = none) :
    generateInsight t (Except.error e)
      = "Error generating insight: " ++ e ∧
    generateInsight InsightType.infographic (Except.ok resp2)
      = "No image generated." ∧
    generateInsight t (Except.ok resp) = "No response generated." ∧
    settleContent (Except.ok (generateInsight t call))
      = generateInsight t call := by
  refine ⟨rfl, ?_, ?_, rfl⟩
  · simp [generateInsight, hnoimg]
  · rcases hnotext with h | h <;> simp [generateInsight, hni, h]

theorem c10_service_never_rejects_witness :
    (InsightType.explain ≠ InsightType.infographic) ∧
    ((⟨[], none⟩ : GenResponse).text = none ∨
      (⟨[], none⟩ : GenResponse).text = some "") ∧
    firstInlineImage (⟨[GenPart.mk none], none⟩ : GenResponse).parts
      = none ∧
    (generateInsight .explain (Except.error "boom")
        = "Error generating insight: " ++ "boom" ∧
     generateInsight InsightType.infographic
        (Except.ok (⟨[GenPart.mk none], none⟩ : GenResponse))
        = "No image generated." ∧
     generateInsight .explain (Except.ok (⟨[], none⟩ : GenResponse))
        = "No response generated." ∧
     settleContent (Except.ok (generateInsight .explain
          (Except.error "x")))
        = generateInsight .explain (Except.error "x")) :=
  ⟨by decide, Or.inl rfl, rfl,
   c10_service_never_rejects .explain "boom" ⟨[], none⟩
     ⟨[GenPart.mk none], none⟩ (Except.error "x")
     (by decide) (Or.inl rfl) rfl⟩

end ArxivInsight
